import Mathlib

/-!
Shallow embedding of the texture-atlas repository (src/lib.rs, src/tile_atlas.rs,
src/tile_atlas_config.rs, src/texture_atlas.rs) for checking its natural-language
specification.

Modelling conventions:
* Rust `HashMap` values are modelled as association lists with `List.lookup`
  semantics; `insert` is modelled by consing (lookup then sees the new binding,
  exactly like an overwriting insert) and in-place `get_mut` mutation by a
  key-preserving value map.
* `u32`/`u64`/`usize` quantities are modelled as `Nat`.  None of the checked
  claims depends on machine-width wrap-around; all concrete inputs stay far
  below `2^32`.
* `f32` arithmetic in the coordinate resolver is idealized as exact rational
  (`ℚ`) arithmetic; the claims under check are about the algebraic structure of
  the computed coordinates, not float rounding.
* Code paths that `unwrap`/`assert!` (panicking on failure) are modelled with
  `Option`, `none` standing for the fatal failure.
* A GPU texture (`Texture2d`) is relevant to the embedded code only through its
  `dimensions()`, so a texture page is modelled by its dimension pair.
-/

/-! ## Data model (src/tile_atlas.rs lines 14-63, src/lib.rs lines 22-39) -/

abbrev TileIndex := Nat

/-- Variants of `TileKind` (tile_atlas.rs lines 19-23): `Static`, or
`Animated(frame_count, delay_millis)`. -/
inductive TileKind where
  | Static : TileKind
  | Animated : Nat → Nat → TileKind
deriving DecidableEq

/-- Mirror of `AtlasTile` (tile_atlas.rs lines 25-30). -/
structure AtlasTile where
  offset : Nat × Nat
  is_autotile : Bool
  tile_kind : TileKind
deriving DecidableEq

/-- Mirror of `AtlasRect` (lib.rs lines 22-28). -/
structure AtlasRect where
  x : Nat
  y : Nat
  w : Nat
  h : Nat
deriving DecidableEq

/-- Mirror of `AtlasFrame` (tile_atlas.rs lines 32-38).  The `offsets` map from
tile index to `AtlasTile` is an association list. -/
structure AtlasFrame where
  tile_size : Nat × Nat
  texture_idx : Nat
  rect : AtlasRect
  offsets : List (TileIndex × AtlasTile)
deriving DecidableEq

/-- Mirror of `AtlasFrame::new` (tile_atlas.rs lines 41-48). -/
def AtlasFrame.new (texture_idx : Nat) (rect : AtlasRect) (tile_size : Nat × Nat) : AtlasFrame :=
  { tile_size := tile_size, texture_idx := texture_idx, rect := rect, offsets := [] }

/-- Mirror of `TileAtlas` (tile_atlas.rs lines 53-57); a texture is modelled by
its pixel dimensions. -/
structure TileAtlas where
  locations : List (TileIndex × String)
  frames : List (String × AtlasFrame)
  textures : List (Nat × Nat)
deriving DecidableEq

/-! ## Association-list helpers and their lookup lemmas -/

/-- Key-preserving update of every value of an association list; models an
in-place `get_mut` mutation of a `HashMap` entry (keys are unique in all maps
built by this code, so mapping every entry agrees with mutating the one entry). -/
def map_values {α β : Type} (g : α → β → β) (l : List (α × β)) : List (α × β) :=
  l.map (fun p => (p.1, g p.1 p.2))

theorem lookup_cons_eq {α β : Type} [BEq α] [LawfulBEq α] (k : α) (v : β) (l : List (α × β)) :
    ((k, v) :: l).lookup k = some v := by
  simp [List.lookup]

theorem lookup_cons_ne {α β : Type} [BEq α] [LawfulBEq α] {k a : α} (v : β) (l : List (α × β))
    (h : k ≠ a) : ((a, v) :: l).lookup k = l.lookup k := by
  have hb : (k == a) = false := beq_eq_false_iff_ne.mpr h
  simp [List.lookup, hb]

theorem lookup_map_values {α β : Type} [BEq α] [LawfulBEq α] (g : α → β → β)
    (l : List (α × β)) (k : α) :
    (map_values g l).lookup k = (l.lookup k).map (g k) := by
  induction l with
  | nil => simp [map_values, List.lookup]
  | cons p rest ih =>
    cases hb : (k == p.1) with
    | true =>
      have hk : k = p.1 := eq_of_beq hb
      subst hk
      simp [map_values, List.lookup]
    | false =>
      simp [map_values, List.lookup, hb] at ih ⊢
      exact ih

theorem lookup_isSome_map_values {α β : Type} [BEq α] [LawfulBEq α] (g : α → β → β)
    (l : List (α × β)) (k : α) :
    ((map_values g l).lookup k).isSome = (l.lookup k).isSome := by
  rw [lookup_map_values]
  cases l.lookup k <;> simp

/-! ## Coordinate resolver (src/tile_atlas.rs lines 160-252) -/

/-- Mirror of `TileAtlas::get_frame` (tile_atlas.rs lines 161-164): resolve
`locations[index]`, then look the key up in `frames`; `unwrap` failure is `none`. -/
def TileAtlas.get_frame (a : TileAtlas) (i : TileIndex) : Option AtlasFrame :=
  match a.locations.lookup i with
  | none => none
  | some key => a.frames.lookup key

/-- Mirror of the free function `get_add_offset` (tile_atlas.rs lines 247-252):
ceiling division of the packed rect's top-left corner by the tile size. -/
def get_add_offset (rect : AtlasRect) (tile_size : Nat × Nat) : Nat × Nat :=
  let ceil := fun (a b : Nat) => (a + b - 1) / b
  (ceil rect.x tile_size.1, ceil rect.y tile_size.2)

/-- Mirror of `TileAtlas::get_sprite_tex_ratio` (tile_atlas.rs lines 179-195).
The tile size is halved in both axes (integer division) when the tile is an
autotile, then each axis ratio is `1.0 / (dimension as f32 / size as f32)` —
note the division is performed on floats, modelled exactly in `ℚ`. -/
def TileAtlas.get_sprite_tex_ratio (a : TileAtlas) (i : TileIndex) : Option (ℚ × ℚ) :=
  match a.get_frame i with
  | none => none
  | some frame =>
    match frame.offsets.lookup i with
    | none => none
    | some tile =>
      let s := frame.tile_size
      let s := if tile.is_autotile then (s.1 / 2, s.2 / 2) else s
      match a.textures[frame.texture_idx]? with
      | none => none
      | some dims =>
        let cols : ℚ := (dims.1 : ℚ) / (s.1 : ℚ)
        let rows : ℚ := (dims.2 : ℚ) / (s.2 : ℚ)
        some (1 / cols, 1 / rows)

/-- Sampling ratio as the SPEC's words state it (spec section 4.4 step 4):
`1 / floor(pageWidth / effectiveTileSize.w)` per axis, i.e. the page dimension
is divided by the effective tile size with FLOOR (integer) division before the
reciprocal is taken.  Stated only to be compared against the source-derived
`TileAtlas.get_sprite_tex_ratio`. -/
def spec_sprite_tex_ratio (a : TileAtlas) (i : TileIndex) : Option (ℚ × ℚ) :=
  match a.get_frame i with
  | none => none
  | some frame =>
    match frame.offsets.lookup i with
    | none => none
    | some tile =>
      let s := frame.tile_size
      let s := if tile.is_autotile then (s.1 / 2, s.2 / 2) else s
      match a.textures[frame.texture_idx]? with
      | none => none
      | some dims =>
        let cols : Nat := dims.1 / s.1
        let rows : Nat := dims.2 / s.2
        some (1 / (cols : ℚ), 1 / (rows : ℚ))

/-- Mirror of `TileAtlas::get_texture_offset` (tile_atlas.rs lines 201-236).
For an animated tile the advance `current_frame % frame_count` (doubled for an
autotile) is added to the x grid offset; afterwards the whole index is
multiplied by 2 when the tile is an autotile, and by the sampling ratio. -/
def TileAtlas.get_texture_offset (a : TileAtlas) (i : TileIndex) (msecs : Nat) :
    Option (ℚ × ℚ) :=
  match a.get_frame i with
  | none => none
  | some frame =>
    match frame.offsets.lookup i with
    | none => none
    | some tile =>
      match a.get_sprite_tex_ratio i with
      | none => none
      | some tex_ratio =>
        let add := get_add_offset frame.rect frame.tile_size
        let add0 : Nat :=
          match tile.tile_kind with
          | TileKind.Static => add.1
          | TileKind.Animated frame_count delay =>
            let current_frame := msecs / delay
            let x_index_offset := current_frame % frame_count
            let x_index_offset :=
              if tile.is_autotile then x_index_offset * 2 else x_index_offset
            add.1 + x_index_offset
        let ratio : Nat := if tile.is_autotile then 2 else 1
        let tx : ℚ := (((tile.offset.1 + add0) * ratio : Nat) : ℚ) * tex_ratio.1
        let ty : ℚ := (((tile.offset.2 + add.2) * ratio : Nat) : ℚ) * tex_ratio.2
        some (tx, ty)

/-- Replace the `tile_kind` stored for tile index `i` (wherever it occurs)
while leaving every other datum of the atlas unchanged.  Used to express "the
static-tile result for the same tile data". -/
def TileAtlas.with_tile_kind (a : TileAtlas) (i : TileIndex) (k : TileKind) : TileAtlas :=
  { a with frames := map_values (fun _ f =>
      { f with offsets := map_values (fun j t =>
          if j == i then { t with tile_kind := k } else t) f.offsets }) a.frames }

/-! ## Rect packer model and the atlas builder (src/tile_atlas.rs lines 59-157)

The bin-packing engine itself (the `texture_packer` crate) is an external
collaborator that is not part of this repository. -/

/-- A source image, modelled by its pixel dimensions (image decoding is an
external collaborator). -/
structure SrcImage where
  w : Nat
  h : Nat
deriving DecidableEq

/-- Modelled from the spec: one fixed-capacity packer page of the external
bin-packing engine ("owns one or more fixed-capacity pages"), recorded as the
list of images packed onto it, newest first. -/
structure PackerPage where
  placed : List (String × Nat × Nat)
deriving DecidableEq

def empty_page : PackerPage := { placed := [] }

/-- Total pixel area already placed on a page. -/
def used_area (p : PackerPage) : Nat :=
  (p.placed.map (fun q => q.2.1 * q.2.2)).sum

/-- Page capacity in pixels: `max_width * max_height` from the
`TexturePackerConfig` built in `TileAtlasBuilder::add_packer`
(tile_atlas.rs lines 121-133), i.e. `2048 * 2048`. -/
def page_capacity : Nat := 2048 * 2048

/-- Modelled from the spec: the external packer's `can_pack` answer ("can this
image fit in page P").  The packing algorithm itself is out of scope for the
repository; per the spec's packer contract a fixed-capacity page accepts an
image while it has room, modelled as the area test. -/
def can_pack (p : PackerPage) (img : SrcImage) : Bool :=
  decide (used_area p + img.w * img.h ≤ page_capacity)

/-- Modelled from the spec: the external packer's `pack_own`, which records the
image on the page. -/
def pack (p : PackerPage) (key : String) (img : SrcImage) : PackerPage :=
  { placed := (key, img.w, img.h) :: p.placed }

/-- Modelled from the spec: the rect reported by the packer for a just-packed
image.  Packed rectangles exactly bound the source image ("no rotation, no
padding, no trimming"); the placement coordinates are packer-internal and not
observed by any checked claim, so they are modelled as the origin. -/
def pack_rect (img : SrcImage) : AtlasRect :=
  { x := 0, y := 0, w := img.w, h := img.h }

/-- Mirror of `TileAtlasBuilder` (tile_atlas.rs lines 59-63). -/
structure TileAtlasBuilder where
  locations : List (TileIndex × String)
  frames : List (String × AtlasFrame)
  packers : List PackerPage
deriving DecidableEq

/-- Mirror of `TileAtlasBuilder::new` (tile_atlas.rs lines 66-74): empty maps
plus one initial packer page added by `add_packer`. -/
def TileAtlasBuilder.new : TileAtlasBuilder :=
  { locations := [], frames := [], packers := [empty_page] }

/-- The first-fit loop of `TileAtlasBuilder::add_frame` (tile_atlas.rs lines
96-105): walk the packer pages in creation order; pack into the first page
whose `can_pack` succeeds, returning the updated page list and the page index. -/
def place_first_fit (key : String) (img : SrcImage) :
    List PackerPage → Option (List PackerPage × Nat)
  | [] => none
  | p :: ps =>
    if can_pack p img then
      some (pack p key img :: ps, 0)
    else
      (place_first_fit key img ps).map (fun r => (p :: r.1, r.2 + 1))

/-- Mirror of `TileAtlasBuilder::add_frame` (tile_atlas.rs lines 88-119):
no-op when the key already has a frame; otherwise first-fit placement over the
existing pages; when no page accepts the image, `add_packer` opens a fresh page
and the image is packed there. -/
def TileAtlasBuilder.add_frame (b : TileAtlasBuilder) (key : String)
    (tile_size : Nat × Nat) (img : SrcImage) : TileAtlasBuilder :=
  if (b.frames.lookup key).isSome then b
  else
    match place_first_fit key img b.packers with
    | some r =>
      { b with packers := r.1,
               frames := (key, AtlasFrame.new r.2 (pack_rect img) tile_size) :: b.frames }
    | none =>
      { b with packers := b.packers ++ [pack empty_page key img],
               frames := (key, AtlasFrame.new b.packers.length (pack_rect img) tile_size)
                           :: b.frames }

/-- Mirror of `TileAtlasBuilder::add_tile` (tile_atlas.rs lines 76-86).  The
two `assert!`s (frame must exist; index must not already be present in that
frame) are modelled as `none`; on success the tile is inserted into the frame's
`offsets` and `locations[index]` is set to the key. -/
def TileAtlasBuilder.add_tile (b : TileAtlasBuilder) (key : String) (index : TileIndex)
    (tile_data : AtlasTile) : Option TileAtlasBuilder :=
  match b.frames.lookup key with
  | none => none
  | some frame =>
    if (frame.offsets.lookup index).isSome then none
    else
      some { b with
        frames := map_values (fun a f =>
            if a == key then { frame with offsets := (index, tile_data) :: frame.offsets }
            else f) b.frames,
        locations := (index, key) :: b.locations }

/-- Mirror of `TileAtlasBuilder::build` (tile_atlas.rs lines 135-157): the
locations and frames maps are cloned into the immutable atlas; every packer
page is exported as one texture (the export and GPU upload are external
collaborators, so each page contributes its fixed page dimensions). -/
def TileAtlasBuilder.build (b : TileAtlasBuilder) : TileAtlas :=
  { locations := b.locations, frames := b.frames,
    textures := b.packers.map (fun _ => (2048, 2048)) }

/-! ## Call sequences against a builder -/

/-- One builder call: `add_frame` or `add_tile`. -/
inductive BuilderOp where
  | addFrame : String → Nat × Nat → SrcImage → BuilderOp
  | addTile : String → TileIndex → AtlasTile → BuilderOp
deriving DecidableEq

/-- Run a sequence of builder calls from a given state; a failed `add_tile`
assertion aborts (the Rust process would panic). -/
def run_ops_from (b : TileAtlasBuilder) : List BuilderOp → Option TileAtlasBuilder
  | [] => some b
  | BuilderOp.addFrame key ts img :: rest => run_ops_from (b.add_frame key ts img) rest
  | BuilderOp.addTile key i t :: rest =>
    match b.add_tile key i t with
    | none => none
    | some b2 => run_ops_from b2 rest

/-- Run a sequence of builder calls from `TileAtlasBuilder::new`. -/
def run_ops (ops : List BuilderOp) : Option TileAtlasBuilder :=
  run_ops_from TileAtlasBuilder.new ops

/-- Decidable check that one tile index is correctly located: `locations`
resolves it to a key whose frame exists and whose `offsets` map contains the
index. -/
def tile_located (frames : List (String × AtlasFrame)) (locs : List (TileIndex × String))
    (idx : TileIndex) : Bool :=
  match locs.lookup idx with
  | some key =>
    match frames.lookup key with
    | some f => (f.offsets.lookup idx).isSome
    | none => false
  | none => false

/-- The atlas invariant of the spec: every tile index present in `locations`
has a corresponding entry in `frames[locations[idx]].tiles`. -/
def atlas_inv (locs : List (TileIndex × String)) (frames : List (String × AtlasFrame)) : Prop :=
  ∀ p ∈ locs, tile_located frames locs p.1 = true

/-! ## Helper lemmas about the builder operations -/

theorem add_frame_existing {b : TileAtlasBuilder} {key : String} (ts : Nat × Nat)
    (img : SrcImage) (h : (b.frames.lookup key).isSome) :
    b.add_frame key ts img = b := by
  unfold TileAtlasBuilder.add_frame
  simp [h]

theorem add_frame_locations (b : TileAtlasBuilder) (key : String) (ts : Nat × Nat)
    (img : SrcImage) : (b.add_frame key ts img).locations = b.locations := by
  unfold TileAtlasBuilder.add_frame
  split
  · rfl
  · split <;> rfl

theorem add_frame_preserves_found {b : TileAtlasBuilder} {key k : String} {ts : Nat × Nat}
    {img : SrcImage} {f : AtlasFrame} (hf : b.frames.lookup k = some f) :
    (b.add_frame key ts img).frames.lookup k = some f := by
  unfold TileAtlasBuilder.add_frame
  split
  · exact hf
  · next hnot =>
    have hkk : k ≠ key := by
      intro he
      subst he
      rw [hf] at hnot
      simp at hnot
    split
    · rw [lookup_cons_ne _ _ hkk]
      exact hf
    · rw [lookup_cons_ne _ _ hkk]
      exact hf

theorem place_first_fit_none_iff (key : String) (img : SrcImage) :
    ∀ ps : List PackerPage,
      place_first_fit key img ps = none ↔ ∀ p ∈ ps, can_pack p img = false := by
  intro ps
  induction ps with
  | nil => simp [place_first_fit]
  | cons p rest ih =>
    by_cases hc : can_pack p img
    · simp [place_first_fit, hc]
    · simp only [place_first_fit, hc, if_false, Option.map_eq_none]
      simp only [Bool.not_eq_true] at hc
      simp [ih, hc]

theorem place_first_fit_some (key : String) (img : SrcImage) :
    ∀ (ps qs : List PackerPage) (n : Nat), place_first_fit key img ps = some (qs, n) →
      qs.length = ps.length ∧
      (∃ p, ps[n]? = some p ∧ can_pack p img = true) ∧
      (∀ j, j < n → ∀ q, ps[j]? = some q → can_pack q img = false) := by
  intro ps
  induction ps with
  | nil => intro qs n h; simp [place_first_fit] at h
  | cons p rest ih =>
    intro qs n h
    by_cases hc : can_pack p img
    · simp [place_first_fit, hc] at h
      obtain ⟨hq, hn⟩ := h
      subst hq
      subst hn
      refine ⟨by simp [pack], ⟨p, by simp, hc⟩, ?_⟩
      intro j hj
      omega
    · simp only [place_first_fit, hc, if_false] at h
      cases hres : place_first_fit key img rest with
      | none => rw [hres] at h; simp at h
      | some r =>
        rw [hres] at h
        simp at h
        obtain ⟨hq, hn⟩ := h
        obtain ⟨hlen, ⟨q0, hq0, hcq0⟩, hfirst⟩ := ih r.1 r.2 (by rw [hres])
        subst hq
        subst hn
        refine ⟨by simp [hlen], ⟨q0, by simpa using hq0, hcq0⟩, ?_⟩
        intro j hj q hq
        cases j with
        | zero =>
          simp at hq
          subst hq
          simpa using hc
        | succ j2 =>
          simp at hq
          exact hfirst j2 (by omega) q hq

theorem add_tile_some_spec {b : TileAtlasBuilder} {key : String} {i : TileIndex}
    {t : AtlasTile} {b2 : TileAtlasBuilder} (h : b.add_tile key i t = some b2) :
    ∃ frame, b.frames.lookup key = some frame ∧ frame.offsets.lookup i = none ∧
      b2.locations = (i, key) :: b.locations ∧
      b2.frames = map_values (fun a f =>
        if a == key then { frame with offsets := (i, t) :: frame.offsets } else f) b.frames ∧
      b2.packers = b.packers := by
  unfold TileAtlasBuilder.add_tile at h
  cases hl : b.frames.lookup key with
  | none => rw [hl] at h; simp at h
  | some frame =>
    rw [hl] at h
    dsimp only at h
    cases ho : frame.offsets.lookup i with
    | some t2 => rw [ho] at h; simp at h
    | none =>
      rw [ho] at h
      simp only [Option.isSome_none, Bool.false_eq_true, if_false, Option.some.injEq] at h
      exact ⟨frame, rfl, ho, by rw [← h], by rw [← h], by rw [← h]⟩

theorem tile_located_iff (fs : List (String × AtlasFrame)) (locs : List (TileIndex × String))
    (i : TileIndex) :
    tile_located fs locs i = true ↔
      ∃ key f, locs.lookup i = some key ∧ fs.lookup key = some f ∧
        (f.offsets.lookup i).isSome := by
  unfold tile_located
  cases locs.lookup i with
  | none => simp
  | some key =>
    cases hf : fs.lookup key with
    | none => simp [hf]
    | some f => simp [hf]

theorem atlas_inv_add_frame {b : TileAtlasBuilder} (h : atlas_inv b.locations b.frames)
    (key : String) (ts : Nat × Nat) (img : SrcImage) :
    atlas_inv (b.add_frame key ts img).locations (b.add_frame key ts img).frames := by
  rw [add_frame_locations]
  intro p hp
  have hloc := h p hp
  rw [tile_located_iff] at hloc ⊢
  obtain ⟨key0, f0, hk0, hf0, hsome⟩ := hloc
  exact ⟨key0, f0, hk0, add_frame_preserves_found hf0, hsome⟩

theorem atlas_inv_add_tile {b b2 : TileAtlasBuilder} {key : String} {i : TileIndex}
    {t : AtlasTile} (h : atlas_inv b.locations b.frames) (hs : b.add_tile key i t = some b2) :
    atlas_inv b2.locations b2.frames := by
  obtain ⟨frame, hfr, _, hloc, hfrm, _⟩ := add_tile_some_spec hs
  intro p hp
  rw [tile_located_iff]
  rw [hloc] at hp
  have hhead : ∀ j : TileIndex, j = i →
      ∃ key2 f2, b2.locations.lookup j = some key2 ∧ b2.frames.lookup key2 = some f2 ∧
        (f2.offsets.lookup j).isSome := by
    intro j hj
    subst hj
    refine ⟨key, { frame with offsets := (j, t) :: frame.offsets }, ?_, ?_, ?_⟩
    · rw [hloc]
      exact lookup_cons_eq j key b.locations
    · rw [hfrm, lookup_map_values, hfr]
      simp
    · rw [lookup_cons_eq]
      rfl
  rcases List.mem_cons.mp hp with hp1 | hp2
  · exact hhead p.1 (by rw [hp1])
  · by_cases hji : p.1 = i
    · exact hhead p.1 hji
    · obtain ⟨key0, f0, hk0, hf0, hsome⟩ := (tile_located_iff _ _ _).mp (h p hp2)
      refine ⟨key0, ?_⟩
      rw [hloc, lookup_cons_ne _ _ hji, hk0]
      by_cases hkey : key0 = key
      · subst hkey
        have hfeq : f0 = frame := by
          rw [hf0] at hfr
          exact (Option.some.injEq _ _).mp hfr
        subst hfeq
        refine ⟨{ f0 with offsets := (i, t) :: f0.offsets }, rfl, ?_, ?_⟩
        · rw [hfrm, lookup_map_values, hf0]
          simp
        · rw [lookup_cons_ne _ _ hji]
          exact hsome
      · refine ⟨f0, rfl, ?_, hsome⟩
        rw [hfrm, lookup_map_values, hf0]
        have : (key0 == key) = false := beq_eq_false_iff_ne.mpr hkey
        simp [this]

theorem run_ops_from_inv :
    ∀ (ops : List BuilderOp) (b b2 : TileAtlasBuilder),
      atlas_inv b.locations b.frames → run_ops_from b ops = some b2 →
      atlas_inv b2.locations b2.frames := by
  intro ops
  induction ops with
  | nil =>
    intro b b2 h hr
    simp [run_ops_from] at hr
    rw [← hr]
    exact h
  | cons op rest ih =>
    intro b b2 h hr
    cases op with
    | addFrame key ts img =>
      exact ih _ _ (atlas_inv_add_frame h key ts img) hr
    | addTile key i t =>
      simp only [run_ops_from] at hr
      cases hstep : b.add_tile key i t with
      | none => rw [hstep] at hr; simp at hr
      | some b3 =>
        rw [hstep] at hr
        exact ih _ _ (atlas_inv_add_tile h hstep) hr

/-! ## Concrete fixtures shared by witnesses -/

def img_24 : SrcImage := { w := 24, h := 24 }

def tile_a : AtlasTile :=
  { offset := (0, 0), is_autotile := false, tile_kind := TileKind.Static }

def tile_b : AtlasTile :=
  { offset := (1, 0), is_autotile := false, tile_kind := TileKind.Static }

/-- A builder call sequence registering two frames and then assigning tile
index 0 first inside frame "a" and then, through a second `add_tile`, inside
frame "b". -/
def ex_ops : List BuilderOp :=
  [BuilderOp.addFrame "a" (24, 24) img_24,
   BuilderOp.addFrame "b" (24, 24) img_24,
   BuilderOp.addTile "a" 0 tile_a,
   BuilderOp.addTile "b" 0 tile_b]

/-- A builder holding one frame "a" whose tile map already contains index 5. -/
def ex_builder : TileAtlasBuilder :=
  { locations := [(5, "a")],
    frames := [("a",
      { tile_size := (24, 24), texture_idx := 0,
        rect := { x := 0, y := 0, w := 48, h := 48 },
        offsets := [(5, tile_a)] })],
    packers := [empty_page] }

/-! ## C7 -/

/-- C7: `add_tile(sourceKey, index, tileData)` fails (fatally, modelled as
`none`) when `sourceKey` has no existing frame, fails when `index` is already
assigned within that frame's tile map, and otherwise succeeds, inserting the
tile data into that frame and recording `locations[index] = sourceKey`. -/
theorem c7_add_tile_preconditions :
    (∀ (b : TileAtlasBuilder) (key : String) (i : TileIndex) (t : AtlasTile),
      b.frames.lookup key = none → b.add_tile key i t = none) ∧
    (∀ (b : TileAtlasBuilder) (key : String) (i : TileIndex) (t : AtlasTile) (f : AtlasFrame),
      b.frames.lookup key = some f → (f.offsets.lookup i).isSome →
      b.add_tile key i t = none) ∧
    (∀ (b : TileAtlasBuilder) (key : String) (i : TileIndex) (t : AtlasTile) (f : AtlasFrame),
      b.frames.lookup key = some f → f.offsets.lookup i = none →
      ∃ b2, b.add_tile key i t = some b2 ∧
        b2.locations.lookup i = some key ∧
        ∃ f2, b2.frames.lookup key = some f2 ∧ f2.offsets.lookup i = some t) := by
  refine ⟨?_, ?_, ?_⟩
  · intro b key i t h
    unfold TileAtlasBuilder.add_tile
    rw [h]
  · intro b key i t f h hsome
    unfold TileAtlasBuilder.add_tile
    rw [h]
    simp [hsome]
  · intro b key i t f h hnone
    unfold TileAtlasBuilder.add_tile
    rw [h]
    dsimp only
    rw [hnone]
    simp only [Option.isSome_none, Bool.false_eq_true, if_false, Option.some.injEq]
    refine ⟨_, rfl, ?_, ?_⟩
    · exact lookup_cons_eq i key b.locations
    · refine ⟨{ f with offsets := (i, t) :: f.offsets }, ?_, ?_⟩
      · rw [lookup_map_values, h]
        simp
      · exact lookup_cons_eq i t f.offsets

/-- Witness for C7 at concrete inputs: on `ex_builder`, `add_tile` with an
unknown key "z" fails, `add_tile` re-assigning the taken index 5 in frame "a"
fails, and `add_tile` with fresh index 7 succeeds and records both entries. -/
theorem c7_witness :
    (ex_builder.add_tile "z" 0 tile_b = none) ∧
    (ex_builder.add_tile "a" 5 tile_b = none) ∧
    (∃ b2, ex_builder.add_tile "a" 7 tile_b = some b2 ∧
      b2.locations.lookup 7 = some "a" ∧
      ∃ f2, b2.frames.lookup "a" = some f2 ∧ f2.offsets.lookup 7 = some tile_b) := by
  refine ⟨?_, ?_, ?_⟩
  · exact c7_add_tile_preconditions.1 ex_builder "z" 0 tile_b (by decide)
  · exact c7_add_tile_preconditions.2.1 ex_builder "a" 5 tile_b
      { tile_size := (24, 24), texture_idx := 0,
        rect := { x := 0, y := 0, w := 48, h := 48 },
        offsets := [(5, tile_a)] } (by decide) (by decide)
  · exact c7_add_tile_preconditions.2.2 ex_builder "a" 7 tile_b
      { tile_size := (24, 24), texture_idx := 0,
        rect := { x := 0, y := 0, w := 48, h := 48 },
        offsets := [(5, tile_a)] } (by decide) (by decide)

/-! ## C8 -/

/-- C8: every builder state reachable by any sequence of `add_frame`/`add_tile`
calls from a fresh builder satisfies the invariant that every tile index
present in `locations` resolves via `frames[locations[index]]` to a frame whose
tile map contains that index, and the atlas returned by `build` satisfies the
same invariant. -/
theorem c8_reachable_invariant :
    ∀ (ops : List BuilderOp) (b : TileAtlasBuilder), run_ops ops = some b →
      atlas_inv b.locations b.frames ∧
      atlas_inv b.build.locations b.build.frames := by
  intro ops b hr
  have hstart : atlas_inv TileAtlasBuilder.new.locations TileAtlasBuilder.new.frames := by
    intro p hp
    simp [TileAtlasBuilder.new] at hp
  have hinv := run_ops_from_inv ops TileAtlasBuilder.new b hstart hr
  exact ⟨hinv, hinv⟩

/-- Witness for C8: the concrete call sequence `ex_ops` runs successfully and
the resulting builder (and built atlas) satisfy the invariant. -/
theorem c8_witness :
    atlas_inv ((run_ops ex_ops).getD TileAtlasBuilder.new).locations
      ((run_ops ex_ops).getD TileAtlasBuilder.new).frames ∧
    atlas_inv ((run_ops ex_ops).getD TileAtlasBuilder.new).build.locations
      ((run_ops ex_ops).getD TileAtlasBuilder.new).build.frames :=
  c8_reachable_invariant ex_ops ((run_ops ex_ops).getD TileAtlasBuilder.new) (by decide)

/-! ## C10 -/

/-- C10: a concrete call sequence on which `add_tile` succeeds for a tile index
that is already registered under a different source key: the run does not fail,
`locations[0]` is overwritten to point at "b", frame "a" still retains its
stale entry for index 0, and frame "b" holds the new entry — whole-atlas
uniqueness of tile indices is not enforced, only uniqueness within one frame. -/
theorem c10_cross_frame_reassignment :
    (run_ops ex_ops).isSome = true ∧
    ((run_ops ex_ops).bind fun b => b.locations.lookup 0) = some "b" ∧
    (((run_ops ex_ops).bind fun b => b.frames.lookup "a").bind
      fun f => f.offsets.lookup 0) = some tile_a ∧
    (((run_ops ex_ops).bind fun b => b.frames.lookup "b").bind
      fun f => f.offsets.lookup 0) = some tile_b := by
  decide

/-! ## C4 -/

/-- Fold a sequence of `add_frame` calls over a builder. -/
def run_frames (b : TileAtlasBuilder) : List (String × (Nat × Nat) × SrcImage) → TileAtlasBuilder
  | [] => b
  | e :: rest => run_frames (b.add_frame e.1 e.2.1 e.2.2) rest

/-- Total pixel area of the images of a sequence of `add_frame` calls. -/
def total_area (l : List (String × (Nat × Nat) × SrcImage)) : Nat :=
  (l.map (fun e => e.2.2.w * e.2.2.h)).sum

theorem used_area_pack (p : PackerPage) (key : String) (img : SrcImage) :
    used_area (pack p key img) = img.w * img.h + used_area p := by
  simp [used_area, pack]

theorem run_frames_page0 :
    ∀ (l : List (String × (Nat × Nat) × SrcImage)) (b : TileAtlasBuilder) (p : PackerPage),
      b.packers = [p] → (∀ e ∈ b.frames, e.2.texture_idx = 0) →
      used_area p + total_area l ≤ page_capacity →
      ∀ e ∈ (run_frames b l).frames, e.2.texture_idx = 0 := by
  intro l
  induction l with
  | nil =>
    intro b p _ hframes _
    simpa [run_frames] using hframes
  | cons hd rest ih =>
    intro b p hpack hframes harea
    have harea2 : total_area (hd :: rest) = hd.2.2.w * hd.2.2.h + total_area rest := by
      simp [total_area]
    cases hk : (b.frames.lookup hd.1).isSome with
    | true =>
      have hskip : b.add_frame hd.1 hd.2.1 hd.2.2 = b := add_frame_existing hd.2.1 hd.2.2 hk
      simp only [run_frames, hskip]
      exact ih b p hpack hframes (by omega)
    | false =>
      have hcan : can_pack p hd.2.2 = true := by
        unfold can_pack
        rw [decide_eq_true_iff]
        omega
      have hstep : b.add_frame hd.1 hd.2.1 hd.2.2 =
          { b with packers := [pack p hd.1 hd.2.2],
                   frames := (hd.1, AtlasFrame.new 0 (pack_rect hd.2.2) hd.2.1) :: b.frames } := by
        unfold TileAtlasBuilder.add_frame
        rw [hk]
        simp only [Bool.false_eq_true, if_false, hpack, place_first_fit, hcan, if_true]
      simp only [run_frames, hstep]
      refine ih _ (pack p hd.1 hd.2.2) rfl ?_ ?_
      · intro e he
        rcases List.mem_cons.mp he with he1 | he2
        · rw [he1]; rfl
        · exact hframes e he2
      · rw [used_area_pack]
        omega

/-- C4: an `add_frame` call whose source key already has a frame is a no-op
(the builder, hence the frame count and every existing frame's rect and page,
is unchanged); a call with a new key places the image on the first existing
page, in page-creation order, whose `can_pack` accepts it, and opens a new page
exactly when every existing page reports it cannot fit; and for any sequence of
`add_frame` calls whose images' total area fits within one page's capacity,
every frame lands on page 0. -/
theorem c4_add_frame_spec :
    (∀ (b : TileAtlasBuilder) (key : String) (ts : Nat × Nat) (img : SrcImage),
      (b.frames.lookup key).isSome → b.add_frame key ts img = b) ∧
    (∀ (b : TileAtlasBuilder) (key : String) (ts : Nat × Nat) (img : SrcImage),
      b.frames.lookup key = none →
      ∃ fr, (b.add_frame key ts img).frames.lookup key = some fr ∧
        ((∃ p, b.packers[fr.texture_idx]? = some p ∧ can_pack p img = true ∧
            (∀ j, j < fr.texture_idx → ∀ q, b.packers[j]? = some q → can_pack q img = false) ∧
            (b.add_frame key ts img).packers.length = b.packers.length) ∨
         (fr.texture_idx = b.packers.length ∧
            (∀ p ∈ b.packers, can_pack p img = false) ∧
            (b.add_frame key ts img).packers.length = b.packers.length + 1))) ∧
    (∀ (l : List (String × (Nat × Nat) × SrcImage)),
      total_area l ≤ page_capacity →
      ∀ e ∈ (run_frames TileAtlasBuilder.new l).frames, e.2.texture_idx = 0) := by
  refine ⟨?_, ?_, ?_⟩
  · intro b key ts img h
    exact add_frame_existing ts img h
  · intro b key ts img h
    have h2 : (b.frames.lookup key).isSome = false := by rw [h]; rfl
    unfold TileAtlasBuilder.add_frame
    simp only [h2, Bool.false_eq_true, if_false]
    cases hpl : place_first_fit key img b.packers with
    | some r =>
      dsimp only
      refine ⟨AtlasFrame.new r.2 (pack_rect img) ts, lookup_cons_eq _ _ _, Or.inl ?_⟩
      obtain ⟨hlen, ⟨p, hp, hcp⟩, hfirst⟩ :=
        place_first_fit_some key img b.packers r.1 r.2 (by rw [hpl])
      exact ⟨p, hp, hcp, hfirst, hlen⟩
    | none =>
      dsimp only
      refine ⟨AtlasFrame.new b.packers.length (pack_rect img) ts, lookup_cons_eq _ _ _,
        Or.inr ⟨rfl, (place_first_fit_none_iff key img b.packers).mp hpl, by simp⟩⟩
  · intro l harea
    refine run_frames_page0 l TileAtlasBuilder.new empty_page rfl ?_ ?_
    · intro e he
      simp [TileAtlasBuilder.new] at he
    · simpa [used_area, empty_page] using harea

/-- Witness for C4 at concrete inputs: re-adding the existing frame "a" of
`ex_builder` is a no-op; adding the fresh frame "z" yields a frame placed by
first-fit; and the two-image sequence of total area 1152 lands entirely on
page 0. -/
theorem c4_witness :
    (ex_builder.add_frame "a" (24, 24) img_24 = ex_builder) ∧
    (∃ fr, (ex_builder.add_frame "z" (24, 24) img_24).frames.lookup "z" = some fr ∧
      ((∃ p, ex_builder.packers[fr.texture_idx]? = some p ∧ can_pack p img_24 = true ∧
          (∀ j, j < fr.texture_idx → ∀ q, ex_builder.packers[j]? = some q →
            can_pack q img_24 = false) ∧
          (ex_builder.add_frame "z" (24, 24) img_24).packers.length =
            ex_builder.packers.length) ∨
       (fr.texture_idx = ex_builder.packers.length ∧
          (∀ p ∈ ex_builder.packers, can_pack p img_24 = false) ∧
          (ex_builder.add_frame "z" (24, 24) img_24).packers.length =
            ex_builder.packers.length + 1))) ∧
    (∀ e ∈ (run_frames TileAtlasBuilder.new
        [("a", (24, 24), img_24), ("b", (24, 24), img_24)]).frames,
      e.2.texture_idx = 0) := by
  refine ⟨?_, ?_, ?_⟩
  · exact c4_add_frame_spec.1 ex_builder "a" (24, 24) img_24 (by decide)
  · exact c4_add_frame_spec.2.1 ex_builder "z" (24, 24) img_24 (by decide)
  · exact c4_add_frame_spec.2.2 [("a", (24, 24), img_24), ("b", (24, 24), img_24)] (by decide)

/-! ## Resolver helper lemmas -/

/-- Retag the `tile_kind` of the entry for index `i` in an offsets map. -/
def retag (i : TileIndex) (k : TileKind) (offs : List (TileIndex × AtlasTile)) :
    List (TileIndex × AtlasTile) :=
  map_values (fun j t => if j == i then { t with tile_kind := k } else t) offs

theorem with_tile_kind_get_frame {a : TileAtlas} {i : TileIndex} {f : AtlasFrame}
    (k : TileKind) (hf : a.get_frame i = some f) :
    (a.with_tile_kind i k).get_frame i = some { f with offsets := retag i k f.offsets } := by
  unfold TileAtlas.get_frame at hf ⊢
  unfold TileAtlas.with_tile_kind
  cases hl : a.locations.lookup i with
  | none => rw [hl] at hf; simp at hf
  | some key =>
    rw [hl] at hf
    dsimp only at hf
    dsimp only
    rw [lookup_map_values, hf]
    rfl

theorem retag_lookup (offs : List (TileIndex × AtlasTile)) (i : TileIndex) (k : TileKind) :
    (retag i k offs).lookup i = (offs.lookup i).map (fun t => { t with tile_kind := k }) := by
  unfold retag
  rw [lookup_map_values]
  cases offs.lookup i <;> simp

theorem get_sprite_tex_ratio_eval {a : TileAtlas} {i : TileIndex} {f : AtlasFrame}
    {t : AtlasTile} {dims : Nat × Nat} (hf : a.get_frame i = some f)
    (ht : f.offsets.lookup i = some t) (hd : a.textures[f.texture_idx]? = some dims) :
    a.get_sprite_tex_ratio i = some
      (1 / ((dims.1 : ℚ) / (((if t.is_autotile then f.tile_size.1 / 2 else f.tile_size.1) : ℕ) : ℚ)),
       1 / ((dims.2 : ℚ) / (((if t.is_autotile then f.tile_size.2 / 2 else f.tile_size.2) : ℕ) : ℚ))) := by
  unfold TileAtlas.get_sprite_tex_ratio
  rw [hf]
  dsimp only
  rw [ht]
  dsimp only
  rw [hd]
  dsimp only
  cases hat : t.is_autotile <;> simp [hat]

theorem with_tile_kind_sprite_ratio {a : TileAtlas} {i : TileIndex} {f : AtlasFrame}
    {t : AtlasTile} (k : TileKind) (hf : a.get_frame i = some f)
    (ht : f.offsets.lookup i = some t) :
    (a.with_tile_kind i k).get_sprite_tex_ratio i = a.get_sprite_tex_ratio i := by
  unfold TileAtlas.get_sprite_tex_ratio
  rw [hf, with_tile_kind_get_frame k hf]
  dsimp only
  rw [ht, retag_lookup, ht]
  rfl

/-! ## C1 -/

/-- A concrete atlas holding one autotile animated tile: nominal tile size
48 by 48 (so effective sampling size 24), two animation frames of 100 ms delay,
packed at the page origin of a 2048 by 2048 page. -/
def ex1_tile : AtlasTile :=
  { offset := (0, 0), is_autotile := true, tile_kind := TileKind.Animated 2 100 }

def ex1_frame : AtlasFrame :=
  { tile_size := (48, 48), texture_idx := 0,
    rect := { x := 0, y := 0, w := 48, h := 96 },
    offsets := [(0, ex1_tile)] }

def ex_autotile_anim : TileAtlas :=
  { locations := [(0, "a")], frames := [("a", ex1_frame)], textures := [(2048, 2048)] }

theorem ex1_ratio : TileAtlas.get_sprite_tex_ratio ex_autotile_anim 0 = some (3 / 256, 3 / 256) := by
  rw [@get_sprite_tex_ratio_eval ex_autotile_anim 0 ex1_frame ex1_tile (2048, 2048) rfl rfl rfl]
  norm_num [ex1_tile, ex1_frame]

/-- C1 counterexample: at `nowMillis = 100` the tile of `ex_autotile_anim` has
`currentFrame = 1`, grid offset `(0, 0)` and horizontal sampling ratio
`3 / 256`.  The claim's composition — base index `(0 + 0)` scaled by 2, plus
the doubled advance `2 * 1`, times the ratio — predicts `2 * (3 / 256) =
3 / 128`, but the code returns `3 / 64`: the doubled advance is added BEFORE
the autotile scaling and is therefore scaled again. -/
theorem c1_counterexample :
    TileAtlas.get_texture_offset ex_autotile_anim 0 100 = some (3 / 64, 0) ∧
    TileAtlas.get_texture_offset ex_autotile_anim 0 100 ≠
      some ((((0 + 0) * 2 + 2 * (100 / 100 % 2) : ℕ) : ℚ) * (3 / 256),
            (((0 + 0) * 2 : ℕ) : ℚ) * (3 / 256)) := by
  have h : TileAtlas.get_texture_offset ex_autotile_anim 0 100 = some (3 / 64, 0) := by
    unfold TileAtlas.get_texture_offset
    rw [show TileAtlas.get_frame ex_autotile_anim 0 = some ex1_frame from rfl]
    dsimp only
    rw [show ex1_frame.offsets.lookup 0 = some ex1_tile from rfl]
    dsimp only
    rw [ex1_ratio]
    norm_num [ex1_tile, ex1_frame, get_add_offset]
  refine ⟨h, ?_⟩
  rw [h]
  norm_num

/-- C1 amended: for an autotile Animated(frameCount, delayMillis) tile the code
adds the doubled animation advance to the UNSCALED base index and then scales
the whole sum by 2 (the autotile addressing factor) before multiplying by the
sampling ratio, so the animation advance contributes `4 * currentFrame`
sampling cells — not `2 * currentFrame` as the spec's composition order would
give.  The autotile and animation adjustments still both apply. -/
theorem c1_autotile_animated_composition (a : TileAtlas) (i : TileIndex) (m fc d : Nat)
    (f : AtlasFrame) (t : AtlasTile) (r : ℚ × ℚ)
    (hf : a.get_frame i = some f) (ht : f.offsets.lookup i = some t)
    (hr : a.get_sprite_tex_ratio i = some r)
    (hauto : t.is_autotile = true) (hkind : t.tile_kind = TileKind.Animated fc d) :
    a.get_texture_offset i m = some
      (((2 * (t.offset.1 + (get_add_offset f.rect f.tile_size).1) : ℕ) : ℚ) * r.1
         + ((4 * (m / d % fc) : ℕ) : ℚ) * r.1,
       ((2 * (t.offset.2 + (get_add_offset f.rect f.tile_size).2) : ℕ) : ℚ) * r.2) := by
  unfold TileAtlas.get_texture_offset
  rw [hf]
  dsimp only
  rw [ht]
  dsimp only
  rw [hr]
  dsimp only
  simp only [hkind, hauto, ite_true, Option.some.injEq, Prod.mk.injEq]
  constructor
  · push_cast
    ring
  · push_cast
    ring

/-- Witness for the amended C1 at the concrete autotile animated atlas:
`2 * (0 + 0) + 4 * 1 = 4` sampling cells of width `3 / 256`. -/
theorem c1_witness :
    TileAtlas.get_texture_offset ex_autotile_anim 0 100 = some
      (((2 * (0 + 0) : ℕ) : ℚ) * (3 / 256) + ((4 * (100 / 100 % 2) : ℕ) : ℚ) * (3 / 256),
       ((2 * (0 + 0) : ℕ) : ℚ) * (3 / 256)) := by
  have h := c1_autotile_animated_composition ex_autotile_anim 0 100 2 100 ex1_frame ex1_tile
    (3 / 256, 3 / 256) rfl rfl ex1_ratio rfl rfl
  simpa [ex1_tile, ex1_frame, get_add_offset] using h

/-! ## C2 -/

/-- A concrete atlas holding one static, non-autotile tile with tile size
36 by 36 on a 2048 by 2048 page: 36 does not divide 2048, so exact division
and floor division of the page dimension disagree. -/
def ex_static36 : TileAtlas :=
  { locations := [(0, "t")],
    frames := [("t",
      { tile_size := (36, 36), texture_idx := 0,
        rect := { x := 0, y := 0, w := 36, h := 36 },
        offsets := [(0, tile_a)] })],
    textures := [(2048, 2048)] }

/-- C2 counterexample: for the tile of `ex_static36` the code computes the
ratio `36 / 2048 = 9 / 512` per axis (exact float division of the page
dimension by the effective tile size), while the spec's formula
`1 / floor(2048 / 36) = 1 / 56` differs: the code takes no floor. -/
theorem c2_counterexample :
    TileAtlas.get_sprite_tex_ratio ex_static36 0 = some (9 / 512, 9 / 512) ∧
    spec_sprite_tex_ratio ex_static36 0 = some (1 / 56, 1 / 56) ∧
    TileAtlas.get_sprite_tex_ratio ex_static36 0 ≠ spec_sprite_tex_ratio ex_static36 0 := by
  have h1 : TileAtlas.get_sprite_tex_ratio ex_static36 0 = some (9 / 512, 9 / 512) := by
    rw [@get_sprite_tex_ratio_eval ex_static36 0
      { tile_size := (36, 36), texture_idx := 0,
        rect := { x := 0, y := 0, w := 36, h := 36 },
        offsets := [(0, tile_a)] } tile_a (2048, 2048) rfl rfl rfl]
    norm_num [tile_a]
  have h2 : spec_sprite_tex_ratio ex_static36 0 = some (1 / 56, 1 / 56) := by
    unfold spec_sprite_tex_ratio
    rw [show TileAtlas.get_frame ex_static36 0 = some
      { tile_size := (36, 36), texture_idx := 0,
        rect := { x := 0, y := 0, w := 36, h := 36 },
        offsets := [(0, tile_a)] } from rfl]
    dsimp only
    norm_num [tile_a, lookup_cons_eq]
    rw [show ex_static36.textures[0]? = some ((2048 : ℕ), (2048 : ℕ)) from rfl]
    norm_num
  refine ⟨h1, h2, ?_⟩
  rw [h1, h2]
  norm_num

/-- C2 amended: for every registered tile the per-axis sampling ratio equals
`effectiveTileSize / pageDimension` with EXACT division (the code divides the
page dimension by the effective size in floats and takes the reciprocal, which
cancels without any floor), where `effectiveTileSize` is the frame's tile size
halved in both axes exactly when `is_autotile` is set. -/
theorem c2_sampling_ratio_exact (a : TileAtlas) (i : TileIndex) (f : AtlasFrame)
    (t : AtlasTile) (dims : Nat × Nat)
    (hf : a.get_frame i = some f) (ht : f.offsets.lookup i = some t)
    (hd : a.textures[f.texture_idx]? = some dims) :
    a.get_sprite_tex_ratio i = some
      ((((if t.is_autotile then f.tile_size.1 / 2 else f.tile_size.1) : ℕ) : ℚ) / (dims.1 : ℚ),
       (((if t.is_autotile then f.tile_size.2 / 2 else f.tile_size.2) : ℕ) : ℚ) / (dims.2 : ℚ)) := by
  rw [@get_sprite_tex_ratio_eval a i f t dims hf ht hd, one_div_div, one_div_div]

/-- Witness for the amended C2 at the concrete atlas `ex_static36`: the ratio
is `36 / 2048` per axis. -/
theorem c2_witness :
    TileAtlas.get_sprite_tex_ratio ex_static36 0 = some ((36 : ℚ) / 2048, (36 : ℚ) / 2048) := by
  have h := c2_sampling_ratio_exact ex_static36 0
    { tile_size := (36, 36), texture_idx := 0,
      rect := { x := 0, y := 0, w := 36, h := 36 },
      offsets := [(0, tile_a)] } tile_a (2048, 2048) rfl rfl rfl
  simpa [tile_a] using h

/-! ## C3 -/

/-- Horizontal animation advance of `get_texture_offset` before any autotile
doubling: zero for a static tile, `(msecs / delay) % frame_count` for an
animated one. -/
def anim_advance (k : TileKind) (msecs : Nat) : Nat :=
  match k with
  | TileKind.Static => 0
  | TileKind.Animated frame_count delay => msecs / delay % frame_count

theorem get_texture_offset_eval_plain {a : TileAtlas} {i : TileIndex} {f : AtlasFrame}
    {t : AtlasTile} {r : ℚ × ℚ} (m : Nat)
    (hf : a.get_frame i = some f) (ht : f.offsets.lookup i = some t)
    (hr : a.get_sprite_tex_ratio i = some r) (hauto : t.is_autotile = false) :
    a.get_texture_offset i m = some
      (((t.offset.1 + (get_add_offset f.rect f.tile_size).1 + anim_advance t.tile_kind m : ℕ) : ℚ)
         * r.1,
       ((t.offset.2 + (get_add_offset f.rect f.tile_size).2 : ℕ) : ℚ) * r.2) := by
  unfold TileAtlas.get_texture_offset
  rw [hf]
  dsimp only
  rw [ht]
  dsimp only
  rw [hr]
  dsimp only
  cases hk : t.tile_kind with
  | Static =>
    simp only [hk, hauto, anim_advance, Bool.false_eq_true, ite_false, Option.some.injEq,
      Prod.mk.injEq]
    constructor
    · push_cast
      ring
    · push_cast
      ring
  | Animated fc d =>
    simp only [hk, hauto, anim_advance, Bool.false_eq_true, ite_false, Option.some.injEq,
      Prod.mk.injEq]
    constructor
    · push_cast
      ring
    · push_cast
      ring

/-- C3: for a non-autotile Animated(frameCount, delayMillis) tile with positive
delay, `get_texture_offset` at time `m` uses `currentFrame = (m / delayMillis)
% frameCount` as the horizontal cell advance: its result exceeds the result
for the same tile data with a Static kind by exactly `currentFrame` horizontal
sampling cells, and agrees vertically. -/
theorem c3_animated_advance (a : TileAtlas) (i : TileIndex) (m fc d : Nat)
    (f : AtlasFrame) (t : AtlasTile) (r : ℚ × ℚ)
    (hf : a.get_frame i = some f) (ht : f.offsets.lookup i = some t)
    (hr : a.get_sprite_tex_ratio i = some r)
    (hauto : t.is_autotile = false) (hkind : t.tile_kind = TileKind.Animated fc d)
    (hdelay : 0 < d) :
    ∃ p q : ℚ × ℚ,
      a.get_texture_offset i m = some p ∧
      (a.with_tile_kind i TileKind.Static).get_texture_offset i m = some q ∧
      p.1 = q.1 + ((m / d % fc : ℕ) : ℚ) * r.1 ∧ p.2 = q.2 := by
  have hf2 := with_tile_kind_get_frame TileKind.Static hf
  have ht2 : ({ f with offsets := retag i TileKind.Static f.offsets } : AtlasFrame).offsets.lookup
      i = some { t with tile_kind := TileKind.Static } := by
    dsimp only
    rw [retag_lookup, ht]
    rfl
  have hr2 : (a.with_tile_kind i TileKind.Static).get_sprite_tex_ratio i = some r := by
    rw [with_tile_kind_sprite_ratio TileKind.Static hf ht, hr]
  have hp := @get_texture_offset_eval_plain a i f t r m hf ht hr hauto
  have hq := @get_texture_offset_eval_plain (a.with_tile_kind i TileKind.Static) i
    { f with offsets := retag i TileKind.Static f.offsets }
    { t with tile_kind := TileKind.Static } r m hf2 ht2 hr2 hauto
  refine ⟨_, _, hp, hq, ?_, ?_⟩
  · dsimp only [anim_advance]
    rw [hkind]
    push_cast
    ring
  · rfl

/-- A concrete atlas holding one non-autotile animated tile with four frames
of 100 ms delay, tile size 24 by 24, packed at the origin of a 2048 by 2048
page (horizontal sampling ratio `3 / 256`). -/
def ex3_tile : AtlasTile :=
  { offset := (0, 0), is_autotile := false, tile_kind := TileKind.Animated 4 100 }

def ex3_frame : AtlasFrame :=
  { tile_size := (24, 24), texture_idx := 0,
    rect := { x := 0, y := 0, w := 96, h := 24 },
    offsets := [(0, ex3_tile)] }

def ex_anim4 : TileAtlas :=
  { locations := [(0, "s")], frames := [("s", ex3_frame)], textures := [(2048, 2048)] }

theorem ex3_ratio : TileAtlas.get_sprite_tex_ratio ex_anim4 0 = some (3 / 256, 3 / 256) := by
  rw [@get_sprite_tex_ratio_eval ex_anim4 0 ex3_frame ex3_tile (2048, 2048) rfl rfl rfl]
  norm_num [ex3_tile, ex3_frame]

/-- Witness for C3 at the spec's scenario: frameCount 4, delay 100 ms,
`nowMillis = 250`, so `currentFrame = 250 / 100 % 4 = 2` and the horizontal
offset exceeds the static result by exactly 2 sampling cells of `3 / 256`. -/
theorem c3_witness :
    (250 / 100 % 4 : Nat) = 2 ∧
    ∃ p q : ℚ × ℚ,
      TileAtlas.get_texture_offset ex_anim4 0 250 = some p ∧
      (ex_anim4.with_tile_kind 0 TileKind.Static).get_texture_offset 0 250 = some q ∧
      p.1 = q.1 + ((250 / 100 % 4 : ℕ) : ℚ) * (3 / 256, (3 : ℚ) / 256).1 ∧ p.2 = q.2 :=
  ⟨by decide,
   c3_animated_advance ex_anim4 0 250 4 100 ex3_frame ex3_tile (3 / 256, 3 / 256)
     rfl rfl ex3_ratio rfl rfl (by decide)⟩

/-! ## Cache gatekeeper (src/tile_atlas_config.rs lines 19-141) -/

/-- Mirror of `TileAtlasConfig` (tile_atlas_config.rs lines 19-24). -/
structure TileAtlasConfig where
  locations : List (TileIndex × String)
  frames : List (String × AtlasFrame)
  file_hash : String
deriving DecidableEq

/-- The gatekeeper's decision: repack everything, or reuse the cache. -/
inductive BuildChoice where
  | rebuild : BuildChoice
  | reuse : BuildChoice
deriving DecidableEq

/-- Outcome of the rebuild path `build_from_toml` (tile_atlas_config.rs lines
96-141), abstracted: the atlas it would build and how many packer invocations
it performs.  Parametrising over it keeps the toml parsing and image
input/output (external collaborators) out of the model. -/
structure RebuildOutcome where
  atlas : TileAtlas
  packer_calls : Nat

/-- Modelled from the spec: `TileAtlas::new(locations, frames, textures)` is
called by `from_config` (tile_atlas_config.rs line 93) but its definition is
not among the repository's files; per the data model it packages the three
parts of an atlas. -/
def TileAtlas.new (locations : List (TileIndex × String)) (frames : List (String × AtlasFrame))
    (textures : List (Nat × Nat)) : TileAtlas :=
  { locations := locations, frames := frames, textures := textures }

/-- Mirror of the decision structure of `TileAtlas::from_config`
(tile_atlas_config.rs lines 57-94).  `persisted` is the cached config when the
cache path exists (`none` models a missing cache), `hash` is the digest of the
current definition text (`hash_str`, an external SHA3, is abstracted as the
already-computed digest), `cached_pages` are the reloaded page images of the
reuse path, and `rebuilt` abstracts the `build_from_toml` rebuild path.  The
returned number counts packer invocations performed by the chosen path. -/
def from_config_model (persisted : Option TileAtlasConfig) (hash : String)
    (cached_pages : List (Nat × Nat)) (rebuilt : RebuildOutcome) :
    BuildChoice × TileAtlas × Nat :=
  match persisted with
  | none => (BuildChoice.rebuild, rebuilt.atlas, rebuilt.packer_calls)
  | some cfg =>
    if cfg.file_hash ≠ hash then (BuildChoice.rebuild, rebuilt.atlas, rebuilt.packer_calls)
    else (BuildChoice.reuse, TileAtlas.new cfg.locations cfg.frames cached_pages, 0)

/-! ## C5 -/

/-- C5: the gatekeeper chooses Rebuild exactly when no persisted config exists
or the persisted `file_hash` differs from the digest of the current text; in
the remaining case it chooses Reuse and reconstructs the atlas from the
persisted config's locations and frames plus the cached page images, with zero
packer invocations. -/
theorem c5_gatekeeper :
    (∀ (persisted : Option TileAtlasConfig) (hash : String) (pages : List (Nat × Nat))
       (rb : RebuildOutcome),
      (from_config_model persisted hash pages rb).1 = BuildChoice.rebuild ↔
        (persisted = none ∨ ∃ cfg, persisted = some cfg ∧ cfg.file_hash ≠ hash)) ∧
    (∀ (cfg : TileAtlasConfig) (hash : String) (pages : List (Nat × Nat))
       (rb : RebuildOutcome),
      cfg.file_hash = hash →
      from_config_model (some cfg) hash pages rb =
        (BuildChoice.reuse, TileAtlas.new cfg.locations cfg.frames pages, 0)) := by
  constructor
  · intro persisted hash pages rb
    cases persisted with
    | none => simp [from_config_model]
    | some cfg =>
      by_cases hne : cfg.file_hash = hash
      · simp [from_config_model, hne]
      · simp [from_config_model, hne]
  · intro cfg hash pages rb h
    simp [from_config_model, h]

def ex_config : TileAtlasConfig :=
  { locations := [(5, "a")],
    frames := [("a",
      { tile_size := (24, 24), texture_idx := 0,
        rect := { x := 0, y := 0, w := 48, h := 48 },
        offsets := [(5, tile_a)] })],
    file_hash := "h1" }

def ex_rebuild : RebuildOutcome :=
  { atlas := { locations := [], frames := [], textures := [(2048, 2048)] }, packer_calls := 3 }

/-- Witness for C5 at concrete inputs: with no persisted config the choice is
Rebuild; with a persisted config whose hash matches, the result is Reuse with
the reconstructed atlas and zero packer invocations. -/
theorem c5_witness :
    ((from_config_model none "h1" [(2048, 2048)] ex_rebuild).1 = BuildChoice.rebuild ↔
      ((none : Option TileAtlasConfig) = none ∨
        ∃ cfg, (none : Option TileAtlasConfig) = some cfg ∧ cfg.file_hash ≠ "h1")) ∧
    from_config_model (some ex_config) "h1" [(2048, 2048)] ex_rebuild =
      (BuildChoice.reuse, TileAtlas.new ex_config.locations ex_config.frames [(2048, 2048)], 0) :=
  ⟨c5_gatekeeper.1 none "h1" [(2048, 2048)] ex_rebuild,
   c5_gatekeeper.2 ex_config "h1" [(2048, 2048)] ex_rebuild rfl⟩

/-! ## C6 -/

/-- Byte-wise lexicographic order on byte lists: the order in which the `glob`
crate yields directory entries ("paths are yielded in alphabetical order"). -/
def lex_le : List Nat → List Nat → Bool
  | [], _ => true
  | _ :: _, [] => false
  | a :: as2, b :: bs => if a < b then true else if b < a then false else lex_le as2 bs

/-- Code points of a string; for the ASCII cache file names these are exactly
the UTF-8 bytes the operating system compares. -/
def str_bytes (s : String) : List Nat := s.toList.map Char.toNat

def str_le (a b : String) : Bool := lex_le (str_bytes a) (str_bytes b)

def insert_sorted (s : String) : List String → List String
  | [] => [s]
  | t :: ts => if str_le s t then s :: t :: ts else t :: insert_sorted s ts

/-- Alphabetical (byte-wise lexicographic) sort, as the `glob` crate orders the
`*.png` matches of the cache directory (tile_atlas_config.rs line 82). -/
def sort_alpha (l : List String) : List String := l.foldr insert_sorted []

/-- Cache page file name for page index `i`: `"{idx}.png"`
(tile_atlas.rs line 143). -/
def page_file_name (i : Nat) : String := toString i ++ ".png"

/-- Modelled from the spec and the `glob` crate contract: the order in which
the reuse path of `from_config` (tile_atlas_config.rs lines 80-91) reloads the
cached page files of an `n`-page atlas and assigns texture handles — the
alphabetical order of the file names `0.png` .. `(n-1).png`. -/
def reuse_load_order (n : Nat) : List String := sort_alpha ((List.range n).map page_file_name)

/-- C6: the cached pages are reloaded in alphabetical file-name order, which
agrees with ascending page index for up to 10 pages but NOT for any number of
pages: with 11 pages the file `10.png` sorts between `1.png` and `2.png`, so
texture handle 2 receives page 10 (and handle 10 receives page 9), breaking
the claimed handle-N-equals-page-N correspondence. -/
theorem c6_glob_order_bug :
    reuse_load_order 10 = (List.range 10).map page_file_name ∧
    reuse_load_order 11 ≠ (List.range 11).map page_file_name ∧
    (reuse_load_order 11)[2]? = some (page_file_name 10) ∧
    (reuse_load_order 11)[10]? = some (page_file_name 9) := by
  decide

/-! ## C9: binary serialization of `TileAtlasConfig`

`write_tile_manager_config` and `load_tile_manager_config`
(tile_atlas_config.rs lines 31-48) delegate the byte format to
`bincode::serialize` / `bincode::deserialize`, an external crate.  Modelled
from the spec ("AtlasConfig binary format: opaque versionless binary blob,
serialize/deserialize symmetric"): little-endian fixed-width integers
(8 bytes for `u64`/`usize`, 4 for `u32` and enum tags, 1 for `bool`),
length-prefixed sequences for maps and strings, fields in declaration order. -/

/-- Little-endian encoding of `n` into `k` bytes. -/
def encBytes : Nat → Nat → List Nat
  | 0, _ => []
  | k + 1, n => n % 256 :: encBytes k (n / 256)

/-- Decode `k` little-endian bytes; `none` when the input is too short. -/
def decBytes : Nat → List Nat → Option (Nat × List Nat)
  | 0, l => some (0, l)
  | _ + 1, [] => none
  | k + 1, b :: l =>
    match decBytes k l with
    | none => none
    | some (m, r) => some (b + 256 * m, r)

def encU64 (n : Nat) : List Nat := encBytes 8 n

def decU64 (l : List Nat) : Option (Nat × List Nat) := decBytes 8 l

def encU32 (n : Nat) : List Nat := encBytes 4 n

def decU32 (l : List Nat) : Option (Nat × List Nat) := decBytes 4 l

def encBool (b : Bool) : List Nat := [if b then 1 else 0]

def decBool : List Nat → Option (Bool × List Nat)
  | 0 :: r => some (false, r)
  | 1 :: r => some (true, r)
  | _ => none

def encChar (c : Char) : List Nat := encU32 c.toNat

def decChar (l : List Nat) : Option (Char × List Nat) :=
  match decU32 l with
  | none => none
  | some (n, r) => some (Char.ofNat n, r)

/-- Concatenated encodings of a sequence's elements. -/
def encSeq {α : Type} (enc : α → List Nat) : List α → List Nat
  | [] => []
  | x :: xs => enc x ++ encSeq enc xs

/-- Decode exactly `k` consecutive elements. -/
def decSeq {α : Type} (dec : List Nat → Option (α × List Nat)) :
    Nat → List Nat → Option (List α × List Nat)
  | 0, l => some ([], l)
  | k + 1, l =>
    match dec l with
    | none => none
    | some (x, r) =>
      match decSeq dec k r with
      | none => none
      | some (xs, r2) => some (x :: xs, r2)

def encString (s : String) : List Nat := encU64 s.length ++ encSeq encChar s.data

def decString (l : List Nat) : Option (String × List Nat) :=
  match decU64 l with
  | none => none
  | some (n, r) =>
    match decSeq decChar n r with
    | none => none
    | some (cs, r2) => some (String.mk cs, r2)

/-- Length-prefixed sequence: how bincode serializes a map's entries. -/
def encMap {α : Type} (encEntry : α → List Nat) (l : List α) : List Nat :=
  encU64 l.length ++ encSeq encEntry l

def decMap {α : Type} (decEntry : List Nat → Option (α × List Nat)) (l : List Nat) :
    Option (List α × List Nat) :=
  match decU64 l with
  | none => none
  | some (n, r) => decSeq decEntry n r

def encTileKind : TileKind → List Nat
  | TileKind.Static => encU32 0
  | TileKind.Animated fc d => encU32 1 ++ encU64 fc ++ encU64 d

def decTileKind (l : List Nat) : Option (TileKind × List Nat) :=
  match decU32 l with
  | none => none
  | some (0, r) => some (TileKind.Static, r)
  | some (1, r) =>
    match decU64 r with
    | none => none
    | some (fc, r2) =>
      match decU64 r2 with
      | none => none
      | some (d, r3) => some (TileKind.Animated fc d, r3)
  | some (_, _) => none

def encAtlasTile (t : AtlasTile) : List Nat :=
  encU32 t.offset.1 ++ encU32 t.offset.2 ++ encBool t.is_autotile ++ encTileKind t.tile_kind

def decAtlasTile (l : List Nat) : Option (AtlasTile × List Nat) :=
  match decU32 l with
  | none => none
  | some (x, r1) =>
    match decU32 r1 with
    | none => none
    | some (y, r2) =>
      match decBool r2 with
      | none => none
      | some (b, r3) =>
        match decTileKind r3 with
        | none => none
        | some (k, r4) =>
          some ({ offset := (x, y), is_autotile := b, tile_kind := k }, r4)

def encAtlasRect (r : AtlasRect) : List Nat :=
  encU32 r.x ++ encU32 r.y ++ encU32 r.w ++ encU32 r.h

def decAtlasRect (l : List Nat) : Option (AtlasRect × List Nat) :=
  match decU32 l with
  | none => none
  | some (x, r1) =>
    match decU32 r1 with
    | none => none
    | some (y, r2) =>
      match decU32 r2 with
      | none => none
      | some (w, r3) =>
        match decU32 r3 with
        | none => none
        | some (h, r4) => some ({ x := x, y := y, w := w, h := h }, r4)

def encTileEntry (e : TileIndex × AtlasTile) : List Nat := encU64 e.1 ++ encAtlasTile e.2

def decTileEntry (l : List Nat) : Option ((TileIndex × AtlasTile) × List Nat) :=
  match decU64 l with
  | none => none
  | some (i, r1) =>
    match decAtlasTile r1 with
    | none => none
    | some (t, r2) => some ((i, t), r2)

def encAtlasFrame (f : AtlasFrame) : List Nat :=
  encU32 f.tile_size.1 ++ encU32 f.tile_size.2 ++ encU64 f.texture_idx ++
    encAtlasRect f.rect ++ encMap encTileEntry f.offsets

def decAtlasFrame (l : List Nat) : Option (AtlasFrame × List Nat) :=
  match decU32 l with
  | none => none
  | some (sw, r1) =>
    match decU32 r1 with
    | none => none
    | some (sh, r2) =>
      match decU64 r2 with
      | none => none
      | some (ti, r3) =>
        match decAtlasRect r3 with
        | none => none
        | some (rect, r4) =>
          match decMap decTileEntry r4 with
          | none => none
          | some (offs, r5) =>
            some ({ tile_size := (sw, sh), texture_idx := ti, rect := rect,
                    offsets := offs }, r5)

def encLocEntry (e : TileIndex × String) : List Nat := encU64 e.1 ++ encString e.2

def decLocEntry (l : List Nat) : Option ((TileIndex × String) × List Nat) :=
  match decU64 l with
  | none => none
  | some (i, r1) =>
    match decString r1 with
    | none => none
    | some (s, r2) => some ((i, s), r2)

def encFrameEntry (e : String × AtlasFrame) : List Nat := encString e.1 ++ encAtlasFrame e.2

def decFrameEntry (l : List Nat) : Option ((String × AtlasFrame) × List Nat) :=
  match decString l with
  | none => none
  | some (s, r1) =>
    match decAtlasFrame r1 with
    | none => none
    | some (f, r2) => some ((s, f), r2)

/-- Modelled from the spec: the binary blob `write_tile_manager_config`
persists for a `TileAtlasConfig` — its three fields in order. -/
def serialize_config (c : TileAtlasConfig) : List Nat :=
  encMap encLocEntry c.locations ++ encMap encFrameEntry c.frames ++ encString c.file_hash

/-- Modelled from the spec: the deserializer `load_tile_manager_config` applies
to the blob. -/
def deserialize_config (l : List Nat) : Option (TileAtlasConfig × List Nat) :=
  match decMap decLocEntry l with
  | none => none
  | some (locs, r1) =>
    match decMap decFrameEntry r1 with
    | none => none
    | some (fs, r2) =>
      match decString r2 with
      | none => none
      | some (h, r3) =>
        some ({ locations := locs, frames := fs, file_hash := h }, r3)

/-- Bounds satisfied by every `TileKind` representable in the Rust type
(`u64` fields). -/
@[reducible] def tile_kind_ok : TileKind → Prop
  | TileKind.Static => True
  | TileKind.Animated fc d => fc < 2 ^ 64 ∧ d < 2 ^ 64

instance (k : TileKind) : Decidable (tile_kind_ok k) := by
  cases k with
  | Static => exact isTrue trivial
  | Animated fc d => exact inferInstanceAs (Decidable (fc < 2 ^ 64 ∧ d < 2 ^ 64))

@[reducible] def str_ok (s : String) : Prop := s.length < 2 ^ 64

@[reducible] def tile_ok (t : AtlasTile) : Prop :=
  t.offset.1 < 2 ^ 32 ∧ t.offset.2 < 2 ^ 32 ∧ tile_kind_ok t.tile_kind

@[reducible] def rect_ok (r : AtlasRect) : Prop :=
  r.x < 2 ^ 32 ∧ r.y < 2 ^ 32 ∧ r.w < 2 ^ 32 ∧ r.h < 2 ^ 32

@[reducible] def frame_ok (f : AtlasFrame) : Prop :=
  f.tile_size.1 < 2 ^ 32 ∧ f.tile_size.2 < 2 ^ 32 ∧ f.texture_idx < 2 ^ 64 ∧
    rect_ok f.rect ∧ f.offsets.length < 2 ^ 64 ∧
    ∀ e ∈ f.offsets, e.1 < 2 ^ 64 ∧ tile_ok e.2

/-- Bounds satisfied by every `TileAtlasConfig` representable in the Rust
types: `u32`/`u64`/`usize` fields are below their width, and a collection or
string never exceeds `usize` many elements. -/
@[reducible] def config_ok (c : TileAtlasConfig) : Prop :=
  c.locations.length < 2 ^ 64 ∧ (∀ e ∈ c.locations, e.1 < 2 ^ 64 ∧ str_ok e.2) ∧
    c.frames.length < 2 ^ 64 ∧ (∀ e ∈ c.frames, str_ok e.1 ∧ frame_ok e.2) ∧
    str_ok c.file_hash

theorem decBytes_encBytes :
    ∀ (k n : Nat) (r : List Nat), decBytes k (encBytes k n ++ r) = some (n % 256 ^ k, r) := by
  intro k
  induction k with
  | zero => intro n r; simp [encBytes, decBytes, Nat.mod_one]
  | succ k ih =>
    intro n r
    have hm : n % 256 ^ (k + 1) = n % 256 + 256 * (n / 256 % 256 ^ k) := by
      rw [pow_succ, mul_comm (256 ^ k) 256, Nat.mod_mul]
    simp only [encBytes, decBytes, List.cons_append, List.append_eq]
    rw [ih]
    dsimp only
    rw [hm]

theorem decU64_encU64 {n : Nat} (h : n < 2 ^ 64) (r : List Nat) :
    decU64 (encU64 n ++ r) = some (n, r) := by
  unfold decU64 encU64
  rw [decBytes_encBytes]
  have : n % 256 ^ 8 = n := Nat.mod_eq_of_lt (by norm_num at h ⊢; exact h)
  rw [this]

theorem decU32_encU32 {n : Nat} (h : n < 2 ^ 32) (r : List Nat) :
    decU32 (encU32 n ++ r) = some (n, r) := by
  unfold decU32 encU32
  rw [decBytes_encBytes]
  have : n % 256 ^ 4 = n := Nat.mod_eq_of_lt (by norm_num at h ⊢; exact h)
  rw [this]

theorem decBool_encBool (b : Bool) (r : List Nat) : decBool (encBool b ++ r) = some (b, r) := by
  cases b <;> rfl

theorem decChar_encChar (c : Char) (r : List Nat) : decChar (encChar c ++ r) = some (c, r) := by
  unfold decChar encChar
  rw [decU32_encU32 (by simpa [Char.toNat] using c.val.toNat_lt) r]
  dsimp only
  rw [Char.ofNat_toNat]

theorem decSeq_encSeq {α : Type} (dec : List Nat → Option (α × List Nat)) (enc : α → List Nat) :
    ∀ (l : List α) (r : List Nat),
      (∀ x ∈ l, ∀ r2 : List Nat, dec (enc x ++ r2) = some (x, r2)) →
      decSeq dec l.length (encSeq enc l ++ r) = some (l, r) := by
  intro l
  induction l with
  | nil => intro r _; simp [encSeq, decSeq]
  | cons x xs ih =>
    intro r hdec
    have hx := hdec x (List.mem_cons_self x xs) (encSeq enc xs ++ r)
    simp only [encSeq, decSeq, List.length_cons, List.append_assoc, hx]
    rw [ih r (fun y hy r2 => hdec y (List.mem_cons_of_mem x hy) r2)]

theorem decString_encString {s : String} (h : str_ok s) (r : List Nat) :
    decString (encString s ++ r) = some (s, r) := by
  unfold decString encString
  rw [List.append_assoc, decU64_encU64 h]
  dsimp only
  have hlen : s.length = s.data.length := rfl
  rw [hlen, decSeq_encSeq decChar encChar s.data r (fun c _ r2 => decChar_encChar c r2)]

theorem decMap_encMap {α : Type} (decE : List Nat → Option (α × List Nat))
    (encE : α → List Nat) (l : List α) (r : List Nat) (hlen : l.length < 2 ^ 64)
    (hdec : ∀ x ∈ l, ∀ r2 : List Nat, decE (encE x ++ r2) = some (x, r2)) :
    decMap decE (encMap encE l ++ r) = some (l, r) := by
  unfold decMap encMap
  rw [List.append_assoc, decU64_encU64 hlen]
  exact decSeq_encSeq decE encE l r hdec

theorem decTileKind_encTileKind {k : TileKind} (hk : tile_kind_ok k) (r : List Nat) :
    decTileKind (encTileKind k ++ r) = some (k, r) := by
  cases k with
  | Static =>
    unfold encTileKind decTileKind
    rw [decU32_encU32 (by norm_num) r]
  | Animated fc d =>
    obtain ⟨h1, h2⟩ := hk
    unfold encTileKind decTileKind
    simp only [List.append_assoc]
    rw [decU32_encU32 (by norm_num)]
    dsimp only
    rw [decU64_encU64 h1]
    dsimp only
    rw [decU64_encU64 h2]

theorem decAtlasTile_encAtlasTile {t : AtlasTile} (ht : tile_ok t) (r : List Nat) :
    decAtlasTile (encAtlasTile t ++ r) = some (t, r) := by
  obtain ⟨h1, h2, h3⟩ := ht
  unfold encAtlasTile decAtlasTile
  simp only [List.append_assoc]
  rw [decU32_encU32 h1]
  dsimp only
  rw [decU32_encU32 h2]
  dsimp only
  rw [decBool_encBool]
  dsimp only
  rw [decTileKind_encTileKind h3]

theorem decAtlasRect_encAtlasRect {a : AtlasRect} (ha : rect_ok a) (r : List Nat) :
    decAtlasRect (encAtlasRect a ++ r) = some (a, r) := by
  obtain ⟨h1, h2, h3, h4⟩ := ha
  unfold encAtlasRect decAtlasRect
  simp only [List.append_assoc]
  rw [decU32_encU32 h1]
  dsimp only
  rw [decU32_encU32 h2]
  dsimp only
  rw [decU32_encU32 h3]
  dsimp only
  rw [decU32_encU32 h4]

theorem decTileEntry_encTileEntry {e : TileIndex × AtlasTile} (hi : e.1 < 2 ^ 64)
    (ht : tile_ok e.2) (r : List Nat) :
    decTileEntry (encTileEntry e ++ r) = some (e, r) := by
  unfold encTileEntry decTileEntry
  rw [List.append_assoc, decU64_encU64 hi]
  dsimp only
  rw [decAtlasTile_encAtlasTile ht]

theorem decAtlasFrame_encAtlasFrame {f : AtlasFrame} (hf : frame_ok f) (r : List Nat) :
    decAtlasFrame (encAtlasFrame f ++ r) = some (f, r) := by
  obtain ⟨h1, h2, h3, h4, h5, h6⟩ := hf
  unfold encAtlasFrame decAtlasFrame
  simp only [List.append_assoc]
  rw [decU32_encU32 h1]
  dsimp only
  rw [decU32_encU32 h2]
  dsimp only
  rw [decU64_encU64 h3]
  dsimp only
  rw [decAtlasRect_encAtlasRect h4]
  dsimp only
  rw [decMap_encMap decTileEntry encTileEntry f.offsets r h5
    (fun e he r2 => decTileEntry_encTileEntry (h6 e he).1 (h6 e he).2 r2)]

theorem decLocEntry_encLocEntry {e : TileIndex × String} (hi : e.1 < 2 ^ 64)
    (hs : str_ok e.2) (r : List Nat) :
    decLocEntry (encLocEntry e ++ r) = some (e, r) := by
  unfold encLocEntry decLocEntry
  rw [List.append_assoc, decU64_encU64 hi]
  dsimp only
  rw [decString_encString hs]

theorem decFrameEntry_encFrameEntry {e : String × AtlasFrame} (hs : str_ok e.1)
    (hf : frame_ok e.2) (r : List Nat) :
    decFrameEntry (encFrameEntry e ++ r) = some (e, r) := by
  unfold encFrameEntry decFrameEntry
  rw [List.append_assoc, decString_encString hs]
  dsimp only
  rw [decAtlasFrame_encAtlasFrame hf]

theorem deserialize_serialize_config {c : TileAtlasConfig} (hc : config_ok c) (r : List Nat) :
    deserialize_config (serialize_config c ++ r) = some (c, r) := by
  obtain ⟨h1, h2, h3, h4, h5⟩ := hc
  unfold serialize_config deserialize_config
  simp only [List.append_assoc]
  rw [decMap_encMap decLocEntry encLocEntry c.locations _ h1
    (fun e he r2 => decLocEntry_encLocEntry (h2 e he).1 (h2 e he).2 r2)]
  dsimp only
  rw [decMap_encMap decFrameEntry encFrameEntry c.frames _ h3
    (fun e he r2 => decFrameEntry_encFrameEntry (h4 e he).1 (h4 e he).2 r2)]
  dsimp only
  rw [decString_encString h5]

/-- C9: serializing a `TileAtlasConfig` to the binary blob and deserializing
the blob returns exactly the original locations, frames and file hash (for
every config whose numeric fields and collection sizes fit the Rust types'
widths, which all representable values do). -/
theorem c9_config_round_trip (c : TileAtlasConfig) (hc : config_ok c) :
    deserialize_config (serialize_config c) = some (c, []) := by
  have h := deserialize_serialize_config hc []
  simpa using h

/-- Witness for C9 at a concrete config. -/
theorem c9_witness :
    deserialize_config (serialize_config ex_config) = some (ex_config, []) := by
  exact c9_config_round_trip ex_config (by decide)
